import Mathlib

/-!
Shallow embedding of the capability-scoped sandbox launcher
(`mcp_sandbox_openai_sdk/sandbox.py` and its SpendWise callers).

The constructor `SandboxedMCPStdio.__init__` is embedded as the pure
function `sandboxInit`: validation of requested runtime permissions
against the manifest, the consent filter, and the construction of the
container argument vector.  Side effects are made explicit parameters:
the operator's consent decisions become a predicate
`consent : RuntimePermission → Bool`, and the host process environment a
snapshot `env : String → Option String` taken at build time.
-/

/-- Modelled from the spec: capability category enumeration declared by a
manifest (`runtime_permissions.py` / `Permission` is not under src); the
constructor names are those used by the SpendWise callers. -/
inductive Permission
  | MCP_AC_NETWORK_CLIENT
  | MCP_AC_FILESYSTEM_READ
  | MCP_AC_FILESYSTEM_WRITE
  | MCP_AC_SYSTEM_ENV_READ
deriving DecidableEq, Repr

/-- Modelled from the spec: network egress by name — destination domain
name and destination port. -/
structure DomainPort where
  domain : String
  port : Nat
deriving DecidableEq, Repr

/-- Modelled from the spec: network egress by address — destination host
(IP literal, rendered as its dotted string) and destination port. -/
structure HostPort where
  host : String
  port : Nat
deriving DecidableEq, Repr

/-- Modelled from the spec: filesystem access — host path, write flag
(false = read-only), optional distinct in-sandbox mount path. -/
structure FSAccess where
  path : String
  write : Bool
  container_path : Option String
deriving DecidableEq, Repr

/-- Modelled from the spec: environment pass-through — variable name only;
the value is resolved from the host environment at build time. -/
structure EnvironmentVariable where
  name : String
deriving DecidableEq, Repr

/-- Modelled from the spec: a concrete runtime permission is one of the
four tagged variants (`runtime_permissions.py` is not under src). -/
inductive RuntimePermission
  | domainPort (p : DomainPort)
  | hostPort (p : HostPort)
  | fsAccess (p : FSAccess)
  | environmentVariable (p : EnvironmentVariable)
deriving DecidableEq, Repr

/-- Modelled from the spec: every concrete permission instance maps to
exactly one capability category; a filesystem permission's category is
filesystem-write when its write flag is set, else filesystem-read. -/
def RuntimePermission.category : RuntimePermission → Permission
  | .domainPort _ => Permission.MCP_AC_NETWORK_CLIENT
  | .hostPort _ => Permission.MCP_AC_NETWORK_CLIENT
  | .fsAccess f =>
      if f.write then Permission.MCP_AC_FILESYSTEM_WRITE
      else Permission.MCP_AC_FILESYSTEM_READ
  | .environmentVariable _ => Permission.MCP_AC_SYSTEM_ENV_READ

/-- Modelled from the spec: validation of one concrete permission against
the manifest's declared category set — it succeeds iff the permission's
category is present in the declared set. -/
def validate_with_manifest_perms (p : RuntimePermission)
    (declared : List Permission) : Bool :=
  decide (p.category ∈ declared)

/-- Modelled from the spec: the extra data a development manifest carries —
a local source path to bind-mount and an override launch command
(`mcp_manifest.py` / `DevMCPManifest` is not under src). -/
structure DevInfo where
  code_mount : String
  exec_command : String
deriving DecidableEq, Repr

/-- Modelled from the spec: an immutable manifest value — package name,
description, source registry identifier, package identifier, declared
capability categories; `dev = some _` embeds the `DevMCPManifest`
subclass (the source tests `isinstance(manifest, DevMCPManifest)`). -/
structure MCPManifest where
  name : String
  description : String
  registry : String
  package_name : String
  permissions : List Permission
  dev : Option DevInfo
deriving DecidableEq, Repr

/-- The `host:port` / `domain:port` pair strings of the consented network
permissions, domain-based pairs first, then host-based, as in the two
comprehensions of `sandbox.py` lines 53-60. -/
def egressPairs (consented : List RuntimePermission) : List String :=
  (consented.filterMap fun p => match p with
    | RuntimePermission.domainPort d => some (d.domain ++ ":" ++ toString d.port)
    | _ => none) ++
  (consented.filterMap fun p => match p with
    | RuntimePermission.hostPort h => some (h.host ++ ":" ++ toString h.port)
    | _ => none)

/-- `allowed_egress` of `sandbox.py`: the comma-joined egress pair list. -/
def allowed_egress (consented : List RuntimePermission) : String :=
  String.intercalate "," (egressPairs consented)

/-- One `--mount` value for a consented filesystem permission
(`sandbox.py` lines 84-88): `type=bind,src=<path>,dst=<container_path or
path>` plus `,readonly` unless the write flag is set. -/
def fsMountArg (f : FSAccess) : String :=
  "type=bind,src=" ++ f.path ++ ",dst=" ++ (f.container_path.getD f.path)
    ++ (if f.write then "" else ",readonly")

/-- The consented filesystem permissions, in order. -/
def consentedFS (consented : List RuntimePermission) : List FSAccess :=
  consented.filterMap fun p => match p with
    | RuntimePermission.fsAccess f => some f
    | _ => none

/-- The flattened `--mount` argument pairs for the consented filesystem
permissions (`sandbox.py` lines 82-93). -/
def mountArgs (consented : List RuntimePermission) : List String :=
  List.flatten (consented.filterMap fun p => match p with
    | RuntimePermission.fsAccess f => some ["--mount", fsMountArg f]
    | _ => none)

/-- The rendered value of one environment pass-through assignment.  The
source builds `f"{p.name}={os.environ.get(p.name)}"`; `os.environ.get`
returns `None` when the variable is absent and the f-string renders that
as the four-character string `None`. -/
def envVarArg (env : String → Option String) (n : String) : String :=
  n ++ "=" ++ (match env n with | some v => v | none => "None")

/-- The flattened `-e NAME=value` argument pairs for the consented
environment permissions (`sandbox.py` lines 95-102). -/
def envArgs (env : String → Option String)
    (consented : List RuntimePermission) : List String :=
  List.flatten (consented.filterMap fun p => match p with
    | RuntimePermission.environmentVariable e => some ["-e", envVarArg env e.name]
    | _ => none)

/-- The flattened `-e k=v` pairs for the caller-supplied
`static_environment_vars` dictionary (`sandbox.py` lines 103-106). -/
def staticEnvArgs (static_environment_vars : List (String × String)) : List String :=
  List.flatten (static_environment_vars.map fun kv => ["-e", kv.1 ++ "=" ++ kv.2])

/-- `add_args` of `sandbox.py` lines 62-73: for a development manifest,
the bind-mount of its local source into `/sandbox` and the two extra
environment markers `PRE_INSTALLED=true` and `EXE=<exec_command>`;
empty otherwise. -/
def add_args (m : MCPManifest) : List String :=
  match m.dev with
  | some d =>
      ["--mount", "type=bind,src=" ++ d.code_mount ++ ",dst=/sandbox",
       "-e", "PRE_INSTALLED=true",
       "-e", "EXE=" ++ d.exec_command]
  | none => []

/-- The `ALLOWED_EGRESS` flag pair (`sandbox.py` line 94): present only
when the joined egress string is non-empty (Python truthiness of the
string). -/
def egressArgs (consented : List RuntimePermission) : List String :=
  if allowed_egress consented = "" then []
  else ["-e", "ALLOWED_EGRESS=" ++ allowed_egress consented]

/-- The container image reference derived from the manifest's registry and
the sandbox version (`sandbox.py` line 108). -/
def sandboxImage (registry version : String) : String :=
  "ghcr.io/guardiagent/mcp-sandbox-" ++ registry ++ ":" ++ version

/-- The full `docker run` argument vector built by
`SandboxedMCPStdio.__init__` (`sandbox.py` lines 75-110) from the
consented permission set.  The global `_sandbox_version` is passed
explicitly as `version`. -/
def buildArgs (m : MCPManifest) (consented : List RuntimePermission)
    (static_environment_vars : List (String × String)) (runtime_args : List String)
    (env : String → Option String) (remove_container_after_run : Bool)
    (version : String) : List String :=
  ["run"] ++ (if remove_container_after_run then ["--rm"] else [])
    ++ ["-i", "--cap-add=NET_ADMIN", "-e", "PACKAGE=" ++ m.package_name]
    ++ mountArgs consented
    ++ egressArgs consented
    ++ envArgs env consented
    ++ staticEnvArgs static_environment_vars
    ++ add_args m
    ++ [sandboxImage m.registry version]
    ++ runtime_args

/-- The error raised when requested permissions are not covered by the
manifest: it carries the manifest's declared categories and the list of
offending permissions (`errors.py` is not under src; the payload is the
pair passed at `raise InvalidRuntimePermission(manifest.permissions,
illegal)`). -/
inductive SandboxError
  | invalidRuntimePermission (declared : List Permission)
      (illegal : List RuntimePermission)
deriving DecidableEq, Repr

/-- `illegal` of `sandbox.py` lines 41-45: the requested permissions that
fail validation against the manifest, in request order. -/
def illegalPerms (m : MCPManifest)
    (runtime_permissions : List RuntimePermission) : List RuntimePermission :=
  runtime_permissions.filter fun p =>
    !(validate_with_manifest_perms p m.permissions)

/-- `SandboxedMCPStdio.__init__` as a pure function: raise
`InvalidRuntimePermission` when some requested permission is uncovered,
otherwise filter by consent and build the argument vector.  An
`Except.error` result means the constructor raised before any consent
prompt and before any invocation spec or process existed. -/
def sandboxInit (m : MCPManifest) (runtime_permissions : List RuntimePermission)
    (consent : RuntimePermission → Bool)
    (static_environment_vars : List (String × String)) (runtime_args : List String)
    (env : String → Option String) (remove_container_after_run : Bool)
    (version : String) : Except SandboxError (List String) :=
  if illegalPerms m runtime_permissions = [] then
    Except.ok (buildArgs m (runtime_permissions.filter consent)
      static_environment_vars runtime_args env remove_container_after_run version)
  else
    Except.error (SandboxError.invalidRuntimePermission m.permissions
      (illegalPerms m runtime_permissions))

/-- The permissions on which `get_user_consent` is invoked: the consent
comprehension at `sandbox.py` line 51 runs only after the illegal check
passed without raising, and then asks about every requested permission. -/
def consentRequests (m : MCPManifest)
    (runtime_permissions : List RuntimePermission) : List RuntimePermission :=
  if illegalPerms m runtime_permissions = [] then runtime_permissions else []

/-- The argument vector of a successful construction, `[]` on error. -/
def builtArgs (r : Except SandboxError (List String)) : List String :=
  match r with
  | Except.ok a => a
  | Except.error _ => []

/-- Python truthiness of `os.environ.get(...)`: `None` and the empty
string are falsy. -/
def truthy (v : Option String) : Bool :=
  match v with
  | none => false
  | some s => !s.isEmpty

/-- Errors raised by `create_travel_mcp_server` before the sandbox
constructor runs (`travel_server.py` lines 66-74). -/
inductive TravelError
  | missingOpenweatherKey
  | travelServerNotFound
deriving DecidableEq, Repr

/-- The travel development manifest of `travel_server.py` lines 30-42; the
resolved local source path is passed in as `code_mount`. -/
def travel_manifest (code_mount : String) : MCPManifest :=
  { name := "Travel API Server"
    description := "Flights, Hotels, Weather, Attractions - all in one"
    registry := "pypi"
    package_name := "mcp-server-travel"
    permissions := [Permission.MCP_AC_NETWORK_CLIENT, Permission.MCP_AC_SYSTEM_ENV_READ]
    dev := some
      { code_mount := code_mount
        exec_command := "sh -c 'pip install -q --break-system-packages /sandbox >&2 && python3 -m mcp_server_travel'" } }

/-- The runtime permission list built by `create_travel_mcp_server`
(`travel_server.py` lines 76-117): Amadeus domains and IPs, OpenWeather,
Overpass, PyPI, the OpenWeather key, and — when Amadeus credentials are
present — the two Amadeus keys. -/
def travelRuntimePerms (has_amadeus : Bool) : List RuntimePermission :=
  [RuntimePermission.domainPort ⟨"test.api.amadeus.com", 443⟩,
   RuntimePermission.domainPort ⟨"api.amadeus.com", 443⟩,
   RuntimePermission.domainPort ⟨"amadeus-self-service-test.apigee.net", 443⟩,
   RuntimePermission.domainPort ⟨"amadeus-self-service.dn.apigee.net", 443⟩,
   RuntimePermission.hostPort ⟨"3.72.68.174", 443⟩,
   RuntimePermission.hostPort ⟨"3.120.238.1", 443⟩,
   RuntimePermission.hostPort ⟨"3.254.195.161", 443⟩,
   RuntimePermission.hostPort ⟨"18.158.72.68", 443⟩,
   RuntimePermission.hostPort ⟨"18.193.119.72", 443⟩,
   RuntimePermission.hostPort ⟨"18.194.228.233", 443⟩,
   RuntimePermission.hostPort ⟨"34.241.251.57", 443⟩,
   RuntimePermission.hostPort ⟨"35.159.123.231", 443⟩,
   RuntimePermission.hostPort ⟨"63.179.6.145", 443⟩,
   RuntimePermission.domainPort ⟨"api.openweathermap.org", 443⟩,
   RuntimePermission.domainPort ⟨"overpass-api.de", 443⟩,
   RuntimePermission.domainPort ⟨"pypi.org", 443⟩,
   RuntimePermission.domainPort ⟨"files.pythonhosted.org", 443⟩,
   RuntimePermission.environmentVariable ⟨"OPENWEATHER_API_KEY"⟩]
  ++ (if has_amadeus then
        [RuntimePermission.environmentVariable ⟨"AMADEUS_API_KEY"⟩,
         RuntimePermission.environmentVariable ⟨"AMADEUS_API_SECRET"⟩]
      else [])

/-- `create_travel_mcp_server` (`travel_server.py` lines 45-126): check
the OpenWeather key, compute `has_amadeus`, check that the travel server
source path exists, then construct the sandbox.  `Path.exists()` is an
external effect and is passed in as `travel_server_path_exists`. -/
def create_travel_mcp_server (travel_server_path_exists : Bool)
    (env : String → Option String) (consent : RuntimePermission → Bool)
    (code_mount : String) (version : String) :
    Except TravelError (Except SandboxError (List String)) :=
  if !truthy (env "OPENWEATHER_API_KEY") then
    Except.error TravelError.missingOpenweatherKey
  else if !travel_server_path_exists then
    Except.error TravelError.travelServerNotFound
  else
    Except.ok (sandboxInit (travel_manifest code_mount)
      (travelRuntimePerms
        (truthy (env "AMADEUS_API_KEY") && truthy (env "AMADEUS_API_SECRET")))
      consent [] [] env true version)

/-- Fixture: a manifest declaring only filesystem-read (the spec's
declaration-mismatch scenario). -/
def fsReadManifest : MCPManifest :=
  { name := "SQLite MCP Server"
    description := "MCP server for SQLite database operations."
    registry := "npm"
    package_name := "mcp-server-sqlite-npx"
    permissions := [Permission.MCP_AC_FILESYSTEM_READ]
    dev := none }

/-- Fixture: a manifest declaring only system-environment-read. -/
def envManifest : MCPManifest :=
  { name := "Env Server"
    description := "env"
    registry := "pypi"
    package_name := "env-server"
    permissions := [Permission.MCP_AC_SYSTEM_ENV_READ]
    dev := none }

/-- Fixture: a manifest declaring only network-client. -/
def netManifest : MCPManifest :=
  { name := "Net Server"
    description := "net"
    registry := "pypi"
    package_name := "net-server"
    permissions := [Permission.MCP_AC_NETWORK_CLIENT]
    dev := none }

/-- Fixture: a development manifest whose local source path is
nonexistent. -/
def devNoPathManifest : MCPManifest :=
  { name := "Dev Server"
    description := "dev"
    registry := "pypi"
    package_name := "dev-server"
    permissions := []
    dev := some { code_mount := "/nonexistent/travel", exec_command := "python3 -m x" } }

/-- Fixture: a filesystem permission requesting write access. -/
def fsWritePerm : RuntimePermission :=
  RuntimePermission.fsAccess { path := "/data", write := true, container_path := none }

/-- Fixture: an empty host environment snapshot. -/
def emptyEnv : String → Option String := fun _ => none

/-- Fixture: a consent source that grants everything. -/
def allowAll : RuntimePermission → Bool := fun _ => true

/-- Fixture: a consent source that denies everything. -/
def denyAll : RuntimePermission → Bool := fun _ => false

theorem illegalPerms_eq_nil_iff (m : MCPManifest) (perms : List RuntimePermission) :
    illegalPerms m perms = [] ↔ ∀ p ∈ perms, p.category ∈ m.permissions := by
  simp [illegalPerms, validate_with_manifest_perms, List.filter_eq_nil_iff]

theorem mem_illegalPerms (m : MCPManifest) (perms : List RuntimePermission)
    (p : RuntimePermission) :
    p ∈ illegalPerms m perms ↔ p ∈ perms ∧ p.category ∉ m.permissions := by
  simp [illegalPerms, validate_with_manifest_perms, List.mem_filter]

/-- C1: the constructor raises the invalid-permission error iff some
requested permission's category is absent from the manifest's declared
category set; the raised error carries the declared set and enumerates
exactly the offending permissions; when it raises, no consent is
requested and no argument vector is built; an empty request never
raises. -/
theorem c1_validation_gate (m : MCPManifest) (perms : List RuntimePermission)
    (consent : RuntimePermission → Bool) (sev : List (String × String))
    (ra : List String) (env : String → Option String) (rm : Bool) (v : String) :
    ((∃ e, sandboxInit m perms consent sev ra env rm v = Except.error e)
        ↔ ∃ p ∈ perms, p.category ∉ m.permissions)
    ∧ (∀ d bad, sandboxInit m perms consent sev ra env rm v
          = Except.error (SandboxError.invalidRuntimePermission d bad) →
        d = m.permissions
          ∧ (∀ q, q ∈ bad ↔ q ∈ perms ∧ q.category ∉ m.permissions)
          ∧ consentRequests m perms = [])
    ∧ sandboxInit m [] consent sev ra env rm v
        = Except.ok (buildArgs m [] sev ra env rm v) := by
  by_cases h : illegalPerms m perms = []
  · refine ⟨?_, ?_, ?_⟩
    · simp only [sandboxInit, h, if_pos]
      constructor
      · rintro ⟨e, he⟩; cases he
      · rintro ⟨p, hp, hcat⟩
        exact absurd ((illegalPerms_eq_nil_iff m perms).mp h p hp) hcat
    · intro d bad hbad
      simp only [sandboxInit, h, if_pos] at hbad
      cases hbad
    · simp [sandboxInit, illegalPerms]
  · refine ⟨?_, ?_, ?_⟩
    · simp only [sandboxInit, h, if_neg, if_false]
      constructor
      · intro _
        rcases List.exists_mem_of_ne_nil _ h with ⟨p, hp⟩
        rcases (mem_illegalPerms m perms p).mp hp with ⟨hmem, hcat⟩
        exact ⟨p, hmem, hcat⟩
      · intro _; exact ⟨SandboxError.invalidRuntimePermission m.permissions (illegalPerms m perms), rfl⟩
    · intro d bad hbad
      simp only [sandboxInit, h, if_neg, if_false, Except.error.injEq] at hbad
      rcases hbad with hbad
      cases hbad
      refine ⟨rfl, fun q => mem_illegalPerms m perms q, ?_⟩
      simp [consentRequests, h]
    · simp [sandboxInit, illegalPerms]

/-- C1 witness: the spec's declaration-mismatch scenario — a manifest
declaring only filesystem-read and a request for a write permission
raises, and no consent is requested. -/
theorem c1_validation_gate_witness :
    (∃ e, sandboxInit fsReadManifest [fsWritePerm] allowAll [] [] emptyEnv true "latest"
        = Except.error e)
    ∧ consentRequests fsReadManifest [fsWritePerm] = [] := by
  have h := c1_validation_gate fsReadManifest [fsWritePerm] allowAll [] [] emptyEnv true "latest"
  have herr : sandboxInit fsReadManifest [fsWritePerm] allowAll [] [] emptyEnv true "latest"
      = Except.error (SandboxError.invalidRuntimePermission fsReadManifest.permissions
          [fsWritePerm]) := rfl
  exact ⟨⟨_, herr⟩, (h.2.1 _ _ herr).2.2⟩

/-- Fixture: the spec's single consented network permission. -/
def netPerm : RuntimePermission :=
  RuntimePermission.domainPort { domain := "db.example.com", port := 443 }

/-- C2 counterexample: with an empty requested-permission list and a
caller-supplied static environment variable, construction succeeds and
the assignment `FOO=bar` reaches the argument vector although no runtime
permission (declared or consented) corresponds to it. -/
theorem c2_static_env_bypass_counterexample :
    (sandboxInit envManifest [] allowAll [("FOO", "bar")] [] emptyEnv true "latest").isOk = true
    ∧ "FOO=bar" ∈ builtArgs
        (sandboxInit envManifest [] allowAll [("FOO", "bar")] [] emptyEnv true "latest")
    ∧ ([] : List RuntimePermission).filter allowAll = [] := by
  decide

/-- C2 amended: every access the built argument vector derives from a
runtime permission comes from the consented subset of the validated
request — each such permission passed both the manifest-declaration check
and the consent check.  (Caller-supplied static environment variables,
the package identity marker and the development-manifest entries are
emitted without a per-permission check.) -/
theorem c2_amended_consent_and_declaration (m : MCPManifest)
    (perms : List RuntimePermission) (consent : RuntimePermission → Bool)
    (sev : List (String × String)) (ra : List String)
    (env : String → Option String) (rm : Bool) (v : String) (a : List String)
    (h : sandboxInit m perms consent sev ra env rm v = Except.ok a) :
    a = buildArgs m (perms.filter consent) sev ra env rm v
    ∧ ∀ p ∈ perms.filter consent,
        consent p = true ∧ validate_with_manifest_perms p m.permissions = true := by
  by_cases hil : illegalPerms m perms = []
  · simp only [sandboxInit, hil, if_pos, Except.ok.injEq] at h
    refine ⟨h.symm, fun p hp => ?_⟩
    rcases List.mem_filter.mp hp with ⟨hmem, hc⟩
    refine ⟨hc, ?_⟩
    have := (illegalPerms_eq_nil_iff m perms).mp hil p hmem
    simp [validate_with_manifest_perms, this]
  · simp only [sandboxInit, hil, if_neg, if_false] at h
    cases h

/-- C2 amended witness: the consented network permission of the spec's
scenario passes both checks. -/
theorem c2_amended_witness :
    allowAll netPerm = true
    ∧ validate_with_manifest_perms netPerm netManifest.permissions = true := by
  have h := c2_amended_consent_and_declaration netManifest [netPerm] allowAll [] [] emptyEnv
    true "latest"
    (buildArgs netManifest ([netPerm].filter allowAll) [] [] emptyEnv true "latest") rfl
  exact h.2 netPerm (by decide)

theorem mem_egressPairs (consented : List RuntimePermission) (s : String) :
    s ∈ egressPairs consented ↔
      (∃ d : DomainPort, RuntimePermission.domainPort d ∈ consented
          ∧ s = d.domain ++ ":" ++ toString d.port)
      ∨ (∃ hp : HostPort, RuntimePermission.hostPort hp ∈ consented
          ∧ s = hp.host ++ ":" ++ toString hp.port) := by
  simp only [egressPairs, List.mem_append, List.mem_filterMap]
  constructor
  · rintro (⟨p, hp, hm⟩ | ⟨p, hp, hm⟩)
    · cases p with
      | domainPort d => exact Or.inl ⟨d, hp, (Option.some.inj hm).symm⟩
      | hostPort q => exact Option.noConfusion hm
      | fsAccess q => exact Option.noConfusion hm
      | environmentVariable q => exact Option.noConfusion hm
    · cases p with
      | hostPort q => exact Or.inr ⟨q, hp, (Option.some.inj hm).symm⟩
      | domainPort q => exact Option.noConfusion hm
      | fsAccess q => exact Option.noConfusion hm
      | environmentVariable q => exact Option.noConfusion hm
  · rintro (⟨d, hd, rfl⟩ | ⟨hp, hh, rfl⟩)
    · exact Or.inl ⟨_, hd, rfl⟩
    · exact Or.inr ⟨_, hh, rfl⟩

/-- C3: the egress allow-list string is the comma-join of exactly the
`domain:port` / `host:port` pairs of the consented network permissions
(a string is among the joined pairs iff a consented network permission
renders to it), and the spec's scenario yields exactly
`db.example.com:443`. -/
theorem c3_egress_exactly_consented (consented : List RuntimePermission) :
    allowed_egress consented = String.intercalate "," (egressPairs consented)
    ∧ (∀ s, s ∈ egressPairs consented ↔
        (∃ d : DomainPort, RuntimePermission.domainPort d ∈ consented
            ∧ s = d.domain ++ ":" ++ toString d.port)
        ∨ (∃ hp : HostPort, RuntimePermission.hostPort hp ∈ consented
            ∧ s = hp.host ++ ":" ++ toString hp.port))
    ∧ allowed_egress [netPerm] = "db.example.com:443" := by
  refine ⟨rfl, fun s => mem_egressPairs consented s, ?_⟩
  decide

/-- C4: the built invocation has exactly one bind-mount entry per
consented filesystem permission (two argument-vector cells each, a
`--mount` flag and its value), whose destination is the override
container path when present and otherwise the host path, and which is
marked `,readonly` iff the write flag is unset; the concrete read-only
override example evaluates as stated. -/
theorem c4_mounts_per_fs_permission (consented : List RuntimePermission) :
    mountArgs consented = List.flatten ((consentedFS consented).map fun f =>
      ["--mount",
        "type=bind,src=" ++ f.path ++ ",dst=" ++ (f.container_path.getD f.path)
          ++ (if f.write then "" else ",readonly")])
    ∧ (mountArgs consented).length = 2 * (consentedFS consented).length
    ∧ mountArgs [RuntimePermission.fsAccess
        { path := "/data", write := false, container_path := some "/db" }]
        = ["--mount", "type=bind,src=/data,dst=/db,readonly"] := by
  have hmain : mountArgs consented = List.flatten ((consentedFS consented).map fun f =>
      ["--mount",
        "type=bind,src=" ++ f.path ++ ",dst=" ++ (f.container_path.getD f.path)
          ++ (if f.write then "" else ",readonly")]) := by
    induction consented with
    | nil => rfl
    | cons p t ih =>
      cases p <;> simp [mountArgs, consentedFS, fsMountArg] at ih ⊢ <;> exact ih
  refine ⟨hmain, ?_, by decide⟩
  rw [hmain]
  induction consentedFS consented with
  | nil => rfl
  | cons f t ih =>
    simp only [List.map_cons, List.flatten_cons, List.length_append, List.length_cons,
      List.length_nil, ih]
    omega

/-- C5: evidence for the divergence — with the host environment lacking
`API_KEY`, construction succeeds (as the claim states) but the argument
vector carries the assignment `API_KEY=None` (Python renders
`os.environ.get` returning `None` into the f-string), not the empty-value
assignment `API_KEY=` that the claim requires. -/
theorem c5_env_absent_yields_none_string :
    (sandboxInit envManifest [RuntimePermission.environmentVariable ⟨"API_KEY"⟩]
        allowAll [] [] emptyEnv true "latest").isOk = true
    ∧ "API_KEY=None" ∈ builtArgs (sandboxInit envManifest
        [RuntimePermission.environmentVariable ⟨"API_KEY"⟩] allowAll [] [] emptyEnv true "latest")
    ∧ "API_KEY=" ∉ builtArgs (sandboxInit envManifest
        [RuntimePermission.environmentVariable ⟨"API_KEY"⟩] allowAll [] [] emptyEnv true "latest") := by
  decide

/-- C6 counterexample: the sandbox constructor itself performs no
path-existence check — it consults no filesystem state, so with a
development manifest whose declared local source path
`/nonexistent/travel` does not exist it still succeeds and returns a
fully built argument vector instead of failing. -/
theorem c6_builder_skips_path_check :
    (sandboxInit devNoPathManifest [] allowAll [] [] emptyEnv true "latest").isOk = true := by
  decide

/-- C6 amended: the path-existence check lives in the caller factory, not
in the constructor — `create_travel_mcp_server` raises
`FileNotFoundError` when the travel server source path does not exist,
before the sandbox constructor runs, so no invocation spec is built. -/
theorem c6_travel_factory_checks_path (env : String → Option String)
    (consent : RuntimePermission → Bool) (cm v : String)
    (hkey : truthy (env "OPENWEATHER_API_KEY") = true) :
    create_travel_mcp_server false env consent cm v
      = Except.error TravelError.travelServerNotFound := by
  simp [create_travel_mcp_server, hkey]

/-- Fixture: a host environment holding only the OpenWeather key. -/
def openweatherOnlyEnv : String → Option String :=
  fun n => if n = "OPENWEATHER_API_KEY" then some "ow-key" else none

/-- C6 witness: with the OpenWeather key set but the source path missing,
the travel factory fails with the file-not-found error. -/
theorem c6_travel_factory_checks_path_witness :
    create_travel_mcp_server false openweatherOnlyEnv allowAll "/src" "latest"
      = Except.error TravelError.travelServerNotFound :=
  c6_travel_factory_checks_path openweatherOnlyEnv allowAll "/src" "latest" (by decide)

/-- C7: once validation passed, any consent outcome yields a successful
construction over the consented subset — a denied permission is excluded
by the filter rather than failing — and in particular denying every
permission still builds the maximally restricted argument vector. -/
theorem c7_denied_permissions_excluded (m : MCPManifest)
    (perms : List RuntimePermission) (sev : List (String × String))
    (ra : List String) (env : String → Option String) (rm : Bool) (v : String)
    (hvalid : ∀ p ∈ perms, validate_with_manifest_perms p m.permissions = true) :
    (∀ consent, sandboxInit m perms consent sev ra env rm v
        = Except.ok (buildArgs m (perms.filter consent) sev ra env rm v))
    ∧ sandboxInit m perms (fun _ => false) sev ra env rm v
        = Except.ok (buildArgs m [] sev ra env rm v) := by
  have hil : illegalPerms m perms = [] := by
    rw [illegalPerms_eq_nil_iff]
    intro p hp
    have h := hvalid p hp
    simpa [validate_with_manifest_perms] using h
  have hfalse : perms.filter (fun _ => false) = [] := by simp
  constructor
  · intro consent
    simp [sandboxInit, hil]
  · simp [sandboxInit, hil, hfalse]

/-- C7 witness: denying the single (validated) network permission still
produces a successful, maximally restricted construction. -/
theorem c7_denied_permissions_excluded_witness :
    sandboxInit netManifest [netPerm] denyAll [] [] emptyEnv true "latest"
      = Except.ok (buildArgs netManifest [] [] [] emptyEnv true "latest") :=
  (c7_denied_permissions_excluded netManifest [netPerm] [] [] emptyEnv true "latest"
    (by decide)).2

theorem envArgs_congr (consented : List RuntimePermission)
    (env env2 : String → Option String)
    (hagree : ∀ e : EnvironmentVariable,
      RuntimePermission.environmentVariable e ∈ consented → env2 e.name = env e.name) :
    envArgs env2 consented = envArgs env consented := by
  induction consented with
  | nil => rfl
  | cons p t ih =>
    have ht := ih (fun e he => hagree e (List.mem_cons_of_mem _ he))
    cases p with
    | environmentVariable e =>
      have he := hagree e (List.mem_cons_self _ _)
      simp only [envArgs, List.filterMap_cons, List.flatten_cons] at ht ⊢
      rw [envVarArg, envVarArg, he]
      simpa using ht
    | domainPort d =>
      simp only [envArgs, List.filterMap_cons] at ht ⊢
      exact ht
    | hostPort q =>
      simp only [envArgs, List.filterMap_cons] at ht ⊢
      exact ht
    | fsAccess f =>
      simp only [envArgs, List.filterMap_cons] at ht ⊢
      exact ht

/-- C8: the value emitted for a consented environment permission is the
host environment's value for that name at build time (`NAME=value` is in
the environment argument pairs), and the emitted pairs depend only on the
build-time snapshot: any second environment agreeing on the consented
names yields identical pairs, so a later host-environment change cannot
alter a built invocation. -/
theorem c8_env_value_snapshot (consented : List RuntimePermission)
    (env env2 : String → Option String) (n v : String)
    (hmem : RuntimePermission.environmentVariable ⟨n⟩ ∈ consented)
    (hv : env n = some v) :
    (n ++ "=" ++ v) ∈ envArgs env consented
    ∧ ((∀ e : EnvironmentVariable,
          RuntimePermission.environmentVariable e ∈ consented →
            env2 e.name = env e.name) →
        envArgs env2 consented = envArgs env consented) := by
  constructor
  · have hval : envVarArg env n = n ++ "=" ++ v := by
      simp [envVarArg, hv]
    rw [← hval]
    simp only [envArgs]
    refine List.mem_flatten.mpr ⟨["-e", envVarArg env n], ?_, by simp⟩
    exact List.mem_filterMap.mpr ⟨_, hmem, rfl⟩
  · intro hagree
    exact envArgs_congr consented env env2 hagree

/-- Fixture: a host environment holding only `API_KEY=secret`. -/
def apiKeyEnv : String → Option String :=
  fun n => if n = "API_KEY" then some "secret" else none

/-- C8 witness: with `API_KEY=secret` in the host environment at build
time, the pair `API_KEY=secret` is among the emitted environment
arguments. -/
theorem c8_env_value_snapshot_witness :
    ("API_KEY" ++ "=" ++ "secret")
      ∈ envArgs apiKeyEnv [RuntimePermission.environmentVariable ⟨"API_KEY"⟩] :=
  (c8_env_value_snapshot [RuntimePermission.environmentVariable ⟨"API_KEY"⟩]
    apiKeyEnv emptyEnv "API_KEY" "secret" (by decide) (by decide)).1

/-- C9: a development manifest contributes exactly one extra bind-mount of
its local source path to the fixed in-container location `/sandbox` plus
exactly two extra environment markers (`PRE_INSTALLED=true` and
`EXE=<override command>`); a non-development manifest contributes none of
them; the contribution appears contiguously inside the built argument
vector. -/
theorem c9_dev_manifest_markers (m : MCPManifest) (consented : List RuntimePermission)
    (sev : List (String × String)) (ra : List String)
    (env : String → Option String) (rm : Bool) (v : String) :
    (∀ d, m.dev = some d → add_args m
        = ["--mount", "type=bind,src=" ++ d.code_mount ++ ",dst=/sandbox",
           "-e", "PRE_INSTALLED=true", "-e", "EXE=" ++ d.exec_command])
    ∧ (m.dev = none → add_args m = [])
    ∧ List.IsInfix (add_args m) (buildArgs m consented sev ra env rm v) := by
  refine ⟨?_, ?_, ?_⟩
  · intro d hd
    simp [add_args, hd]
  · intro hd
    simp [add_args, hd]
  · refine ⟨["run"] ++ (if rm then ["--rm"] else [])
      ++ ["-i", "--cap-add=NET_ADMIN", "-e", "PACKAGE=" ++ m.package_name]
      ++ mountArgs consented ++ egressArgs consented ++ envArgs env consented
      ++ staticEnvArgs sev,
      [sandboxImage m.registry v] ++ ra, ?_⟩
    simp [buildArgs, List.append_assoc]

/-- C9 witness: the two fixtures — the development manifest yields the
mount into `/sandbox` plus the two markers; the plain network manifest
yields no extra entries. -/
theorem c9_dev_manifest_markers_witness :
    add_args devNoPathManifest
      = ["--mount", "type=bind,src=" ++ "/nonexistent/travel" ++ ",dst=/sandbox",
         "-e", "PRE_INSTALLED=true", "-e", "EXE=" ++ "python3 -m x"]
    ∧ add_args netManifest = [] :=
  ⟨(c9_dev_manifest_markers devNoPathManifest [] [] [] emptyEnv true "latest").1
      { code_mount := "/nonexistent/travel", exec_command := "python3 -m x" } rfl,
    (c9_dev_manifest_markers netManifest [] [] [] emptyEnv true "latest").2.1 rfl⟩

theorem intercalate_go_data (s : String) (l : List String) (acc : String) :
    ∃ t, (String.intercalate.go acc s l).data = acc.data ++ t := by
  induction l generalizing acc with
  | nil => exact ⟨[], by simp [String.intercalate.go]⟩
  | cons a as ih =>
    rcases ih (acc ++ s ++ a) with ⟨t, ht⟩
    refine ⟨s.data ++ a.data ++ t, ?_⟩
    rw [String.intercalate.go, ht]
    simp [List.append_assoc]

theorem egressPair_data_ne_nil (consented : List RuntimePermission) (a : String)
    (ha : a ∈ egressPairs consented) : a.data ≠ [] := by
  rcases (mem_egressPairs _ a).mp ha with ⟨d, _, rfl⟩ | ⟨q, _, rfl⟩ <;>
    · intro h
      have hlen := congrArg List.length h
      simp only [String.data_append, List.length_append, List.length_cons,
        List.length_nil] at hlen
      omega

theorem egressPairs_eq_nil_iff (consented : List RuntimePermission) :
    egressPairs consented = [] ↔
      ∀ p ∈ consented, p.category ≠ Permission.MCP_AC_NETWORK_CLIENT := by
  constructor
  · intro h p hp hcat
    cases p with
    | domainPort d =>
      have hmem : (d.domain ++ ":" ++ toString d.port) ∈ egressPairs consented :=
        (mem_egressPairs _ _).mpr (Or.inl ⟨d, hp, rfl⟩)
      rw [h] at hmem
      cases hmem
    | hostPort q =>
      have hmem : (q.host ++ ":" ++ toString q.port) ∈ egressPairs consented :=
        (mem_egressPairs _ _).mpr (Or.inr ⟨q, hp, rfl⟩)
      rw [h] at hmem
      cases hmem
    | fsAccess f =>
      cases hw : f.write <;> simp [RuntimePermission.category, hw] at hcat
    | environmentVariable e =>
      simp [RuntimePermission.category] at hcat
  · intro h
    cases hq : egressPairs consented with
    | nil => rfl
    | cons a as =>
      have ha : a ∈ egressPairs consented := by
        rw [hq]; exact List.mem_cons_self _ _
      rcases (mem_egressPairs _ _).mp ha with ⟨d, hd, rfl⟩ | ⟨q, hh, rfl⟩
      · exact absurd rfl (h _ hd)
      · exact absurd rfl (h _ hh)

theorem allowed_egress_eq_empty_iff (consented : List RuntimePermission) :
    allowed_egress consented = "" ↔ egressPairs consented = [] := by
  constructor
  · intro h
    cases hq : egressPairs consented with
    | nil => rfl
    | cons a as =>
      exfalso
      have ha : a ∈ egressPairs consented := by
        rw [hq]; exact List.mem_cons_self _ _
      have hadata := egressPair_data_ne_nil consented a ha
      have hgo : allowed_egress consented = String.intercalate.go a "," as := by
        rw [allowed_egress, hq, String.intercalate]
      rcases intercalate_go_data "," as a with ⟨t, ht⟩
      rw [hgo] at h
      have hdata := congrArg String.data h
      rw [ht] at hdata
      rcases List.append_eq_nil.mp hdata with ⟨h1, _⟩
      exact hadata h1
  · intro h
    rw [allowed_egress, h, String.intercalate]

/-- C10: the `ALLOWED_EGRESS` flag pair is present among the built
arguments iff at least one consented permission is a network permission;
with no consented network permission the flag is omitted entirely (the
pair list is empty) rather than passed with an empty value. -/
theorem c10_egress_flag_iff_network (consented : List RuntimePermission) :
    ((∃ p ∈ consented, p.category = Permission.MCP_AC_NETWORK_CLIENT)
        ↔ egressArgs consented
            = ["-e", "ALLOWED_EGRESS=" ++ allowed_egress consented])
    ∧ ((¬ ∃ p ∈ consented, p.category = Permission.MCP_AC_NETWORK_CLIENT)
        ↔ egressArgs consented = []) := by
  by_cases hn : ∃ p ∈ consented, p.category = Permission.MCP_AC_NETWORK_CLIENT
  · have hpairs : egressPairs consented ≠ [] := by
      intro h
      rcases hn with ⟨p, hp, hc⟩
      exact (egressPairs_eq_nil_iff consented).mp h p hp hc
    have hae : allowed_egress consented ≠ "" := by
      intro h
      exact hpairs ((allowed_egress_eq_empty_iff consented).mp h)
    constructor
    · simp [egressArgs, hae, hn]
    · simp [egressArgs, hae, hn]
  · have hpairs : egressPairs consented = [] := by
      rw [egressPairs_eq_nil_iff]
      intro p hp hc
      exact hn ⟨p, hp, hc⟩
    have hae : allowed_egress consented = "" :=
      (allowed_egress_eq_empty_iff consented).mpr hpairs
    constructor
    · simp [egressArgs, hae, hn]
    · simp [egressArgs, hae, hn]
